import Mathlib

/-!
Verification of the gohan SQL layer: the filter-to-SQL compiler, the
DDL generator, the transaction helpers and the Go-callback registry.

The Go sources present under `src/` are the `transaction` package
(`GetIsolationLevel`, `ErrResourceNotFound`, the `Transaction` interface)
and the callback registry (`RegisterGoCallback` / `GetGoCallback`); these
are embedded directly.  The bodies of `AddFilterToSelectQuery`,
`AlterTableDef`, pagination and the CRUD operations are not part of the
sample; they are modelled from the specification, pinned to the concrete
input/output pairs fixed by the repository's tests in
`src/db/sql/sql_test.go`.
-/

namespace Gohan

/-- A scalar SQL parameter value, as bound by the driver. -/
inductive Val where
  | str : String → Val
  | int : Int → Val
  | boolean : Bool → Val
deriving DecidableEq, Repr

/-- A filter leaf value: a literal, an ordered sequence of literals
(membership test), or a search token (substring match marker),
mirroring `search.NewSearchField` wrapping in the tests. -/
inductive LeafVal where
  | lit : Val → LeafVal
  | seq : List Val → LeafVal
  | search : String → LeafVal
deriving DecidableEq, Repr

/-- The explicit comparison operator of a compound leaf object
(the `"type"` field): `eq` or `neq`. -/
inductive OpType where
  | eq
  | neq
deriving DecidableEq, Repr

/-- An entry of an `__and__` / `__or__` compound: a leaf object
`\x7b"property": p, "type": op, "value": v\x7d` (with the `type` field
optional), a nested compound, or a `__bool__` constant. -/
inductive FilterItem where
  | leaf : String → Option OpType → LeafVal → FilterItem
  | and : List FilterItem → FilterItem
  | or : List FilterItem → FilterItem
  | boolConst : Bool → FilterItem

/-- The value sitting under a top-level filter key: a leaf value for a
property key, a sequence of sub-filters for `__and__` / `__or__`, or a
boolean for `__bool__`. -/
inductive MapVal where
  | leaf : LeafVal → MapVal
  | items : List FilterItem → MapVal
  | boolV : Bool → MapVal

/-- A schema property (name, SQL type, nullability, indexed flag),
as consumed by the DDL generator. -/
structure Property where
  name : String
  sqlType : String
  notNull : Bool
  indexed : Bool
deriving DecidableEq, Repr

/-- Go interface values that can sit in `schema.Schema.IsolationLevel`
(a `map[string]interface\x7b\x7d`). -/
inductive GoVal where
  | str : String → GoVal
  | int : Int → GoVal
  | boolean : Bool → GoVal
deriving DecidableEq, Repr

/-- The slice of `schema.Schema` the claims need: the physical table
name, the ordered property list and the per-action isolation-level
override map (modelled as an association list). -/
structure Schema where
  tableName : String
  properties : List Property
  isolationLevel : List (String × GoVal)
deriving DecidableEq, Repr

/-- A property name resolves against the schema's columns. -/
def Schema.hasProperty (s : Schema) (name : String) : Bool :=
  s.properties.any (fun p => p.name == name)

/-- Identifier quoting: every column reference is wrapped in the
backend's identifier-quote character (backtick in the tests). -/
def quoteCol (name : String) : String :=
  "`" ++ name ++ "`"

/-! ## LIKE escaping

The escaping function is pinned by the test vector
`checkLikeQueries("\\1%2_3_a\\b%c", "%\\\\1\\%2\\_3\\_a\\\\b\\%c%")`:
each of `\`, `%`, `_` is prefixed with the escape character `\`
(so the escape character itself gets doubled, while `%` and `_` are
escaped, not doubled). -/

/-- Escape one character for use inside a LIKE pattern. -/
def escapeLikeChar (c : Char) : List Char :=
  if c = '\\' ∨ c = '%' ∨ c = '_' then ['\\', c] else [c]

/-- Escape a whole string (as a character list) for LIKE. -/
def escapeLike : List Char → List Char
  | [] => []
  | c :: cs => escapeLikeChar c ++ escapeLike cs

/-- The LIKE pattern emitted for a search token: the escaped value
wrapped in `%...%`. -/
def likePattern (v : List Char) : List Char :=
  '%' :: (escapeLike v ++ ['%'])

/-- String-level wrapper of `likePattern`. -/
def likePatternStr (s : String) : String :=
  String.mk (likePattern s.toList)

/-- Modelled from the spec: the escaping that the specification text
claims, in which the SQL wildcard characters `%`, `_` and the escape
character are *doubled*.  Defined only to compare with the escaping the
code actually performs. -/
def specDoubledChar (c : Char) : List Char :=
  if c = '\\' ∨ c = '%' ∨ c = '_' then [c, c] else [c]

/-- Modelled from the spec: doubling-based escaping of a whole string. -/
def specDoubledEscape : List Char → List Char
  | [] => []
  | c :: cs => specDoubledChar c ++ specDoubledEscape cs

/-- Modelled from the spec: the pattern the claim says is emitted. -/
def specDoubledPattern (v : List Char) : List Char :=
  '%' :: (specDoubledEscape v ++ ['%'])

/-- SQL LIKE matching with `%` (any sequence), `_` (any one character)
and `\` as the escape character (the backend default the tests rely
on): `likeMatch pattern subject`. -/
def likeMatch : List Char → List Char → Bool
  | [], s => s.isEmpty
  | c :: p, s =>
    if c = '%' then
      s.tails.any (fun t => likeMatch p t)
    else if c = '\\' then
      match p, s with
      | d :: p', x :: s' => x == d && likeMatch p' s'
      | _, _ => false
    else if c = '_' then
      match s with
      | [] => false
      | _ :: s' => likeMatch p s'
    else
      match s with
      | [] => false
      | x :: s' => x == c && likeMatch p s'

lemma likeMatch_nil (s : List Char) : likeMatch [] s = s.isEmpty := rfl

lemma likeMatch_percent_cons (p : List Char) (s : List Char) :
    likeMatch ('%' :: p) s = s.tails.any (fun t => likeMatch p t) := by
  rw [likeMatch.eq_def]
  simp

lemma likeMatch_backslash (c : Char) (p : List Char) :
    likeMatch ('\\' :: c :: p) [] = false ∧
      ∀ x s, likeMatch ('\\' :: c :: p) (x :: s) = (x == c && likeMatch p s) := by
  constructor
  · rw [likeMatch.eq_def]
    simp
  · intro x s
    rw [likeMatch.eq_def]
    simp

lemma likeMatch_lit (c : Char) (p : List Char)
    (h1 : c ≠ '%') (h2 : c ≠ '\\') (h3 : c ≠ '_') :
    likeMatch (c :: p) [] = false ∧
      ∀ x s, likeMatch (c :: p) (x :: s) = (x == c && likeMatch p s) := by
  constructor
  · rw [likeMatch.eq_def]
    simp [h1, h2, h3]
  · intro x s
    rw [likeMatch.eq_def]
    simp [h1, h2, h3]

/-- Matching a `%`-headed pattern splits the subject. -/
lemma likeMatch_percent (p : List Char) (s : List Char) :
    likeMatch ('%' :: p) s = true ↔
      ∃ a b, a ++ b = s ∧ likeMatch p b = true := by
  rw [likeMatch_percent_cons]
  rw [List.any_eq_true]
  constructor
  · rintro ⟨t, ht, h⟩
    rw [List.mem_tails] at ht
    obtain ⟨a, ha⟩ := ht
    exact ⟨a, t, ha, h⟩
  · rintro ⟨a, b, hab, h⟩
    refine ⟨b, ?_, h⟩
    rw [List.mem_tails]
    exact ⟨a, hab⟩

/-- A bare trailing `%` matches every subject. -/
lemma likeMatch_percent_nil (s : List Char) : likeMatch ['%'] s = true := by
  rw [likeMatch_percent]
  exact ⟨s, [], by simp, by simp [likeMatch_nil]⟩

/-- The escaped block of a pattern matches exactly the original
characters, literally, whatever wildcards the original contained. -/
lemma likeMatch_escapeLike_append (v : List Char) (rest : List Char) :
    ∀ s, likeMatch (escapeLike v ++ rest) s = true ↔
      ∃ s', s = v ++ s' ∧ likeMatch rest s' = true := by
  induction v with
  | nil =>
    intro s
    simp [escapeLike]
  | cons c v ih =>
    intro s
    by_cases hc : c = '\\' ∨ c = '%' ∨ c = '_'
    · have he : escapeLike (c :: v) ++ rest = '\\' :: c :: (escapeLike v ++ rest) := by
        simp [escapeLike, escapeLikeChar, hc]
      rw [he]
      cases s with
      | nil =>
        rw [(likeMatch_backslash c (escapeLike v ++ rest)).1]
        simp
      | cons x s =>
        rw [(likeMatch_backslash c (escapeLike v ++ rest)).2 x s]
        rw [Bool.and_eq_true, beq_iff_eq]
        constructor
        · rintro ⟨rfl, h⟩
          obtain ⟨s', rfl, h'⟩ := (ih s).1 h
          exact ⟨s', by simp, h'⟩
        · rintro ⟨s', hs, h'⟩
          rw [List.cons_append] at hs
          injection hs with hx hs2
          exact ⟨hx, (ih s).2 ⟨s', hs2, h'⟩⟩
    · push_neg at hc
      obtain ⟨h1, h2, h3⟩ := hc
      have he : escapeLike (c :: v) ++ rest = c :: (escapeLike v ++ rest) := by
        simp [escapeLike, escapeLikeChar, h1, h2, h3]
      rw [he]
      cases s with
      | nil =>
        rw [(likeMatch_lit c (escapeLike v ++ rest) h2 h1 h3).1]
        simp
      | cons x s =>
        rw [(likeMatch_lit c (escapeLike v ++ rest) h2 h1 h3).2 x s]
        rw [Bool.and_eq_true, beq_iff_eq]
        constructor
        · rintro ⟨rfl, h⟩
          obtain ⟨s', rfl, h'⟩ := (ih s).1 h
          exact ⟨s', by simp, h'⟩
        · rintro ⟨s', hs, h'⟩
          rw [List.cons_append] at hs
          injection hs with hx hs2
          exact ⟨hx, (ih s).2 ⟨s', hs2, h'⟩⟩

/-- The emitted pattern matches a subject exactly when the original
(unescaped) value occurs in it as a literal substring. -/
theorem likePattern_matches (v s : List Char) :
    likeMatch (likePattern v) s = true ↔ ∃ a b, a ++ v ++ b = s := by
  unfold likePattern
  rw [likeMatch_percent]
  constructor
  · rintro ⟨a, b, rfl, h⟩
    obtain ⟨b', rfl, _⟩ := (likeMatch_escapeLike_append v ['%'] b).1 h
    exact ⟨a, b', by simp⟩
  · rintro ⟨a, b, rfl⟩
    refine ⟨a, v ++ b, by simp, ?_⟩
    exact (likeMatch_escapeLike_append v ['%'] (v ++ b)).2
      ⟨b, rfl, likeMatch_percent_nil b⟩

/-! ## The compiled predicate

A compiled predicate mirrors the squirrel condition tree the compiler
builds: comparisons, LIKE, set membership, raw constant fragments, and
AND/OR combinations.  `condToSql` renders it exactly the way squirrel's
`ToSql` does in the tests (placeholders `?`, `IN (?,?,...)`,
parenthesized connectives). -/

/-- A compiled SQL condition. -/
inductive Cond where
  | eq : String → Val → Cond
  | neq : String → Val → Cond
  | like : String → String → Cond
  | inList : String → List Val → Cond
  | notInList : String → List Val → Cond
  | raw : String → Cond
  | and : List Cond → Cond
  | or : List Cond → Cond

/-- The constant-truth fragment: `(1=1)` or `(1=0)`. -/
def boolCond (b : Bool) : Cond :=
  Cond.raw (if b then "(1=1)" else "(1=0)")

/-- Join strings with a separator (squirrel's joining of SQL pieces). -/
def joinWith (sep : String) : List String → String
  | [] => ""
  | [x] => x
  | x :: y :: rest => x ++ sep ++ joinWith sep (y :: rest)

/-- `n` comma-separated placeholders, as squirrel renders an IN list. -/
def placeholders (n : Nat) : String :=
  joinWith "," (List.replicate n "?")

mutual

/-- Render one condition to SQL text plus its ordered parameters. -/
def condToSql : Cond → String × List Val
  | Cond.eq col v => (col ++ " = ?", [v])
  | Cond.neq col v => (col ++ " <> ?", [v])
  | Cond.like col pat => (col ++ " LIKE ?", [Val.str pat])
  | Cond.inList col vs => (col ++ " IN (" ++ placeholders vs.length ++ ")", vs)
  | Cond.notInList col vs =>
      (col ++ " NOT IN (" ++ placeholders vs.length ++ ")", vs)
  | Cond.raw s => (s, [])
  | Cond.and cs =>
      ("(" ++ joinWith " AND " ((condListToSql cs).map Prod.fst) ++ ")",
        ((condListToSql cs).map Prod.snd).flatten)
  | Cond.or cs =>
      ("(" ++ joinWith " OR " ((condListToSql cs).map Prod.fst) ++ ")",
        ((condListToSql cs).map Prod.snd).flatten)

/-- Render a list of conditions. -/
def condListToSql : List Cond → List (String × List Val)
  | [] => []
  | c :: cs => condToSql c :: condListToSql cs

end

/-- The WHERE text of a query whose `.Where` calls added `conds`:
squirrel joins them with AND. -/
def whereSql (conds : List Cond) : String :=
  joinWith " AND " ((condListToSql conds).map Prod.fst)

/-- The ordered parameter list of the same query. -/
def whereParams (conds : List Cond) : List Val :=
  ((condListToSql conds).map Prod.snd).flatten

mutual

/-- No `IN` / `NOT IN` over an empty list anywhere in a condition:
the structural reading of "no `IN ()` SQL is ever produced". -/
def noEmptyIn : Cond → Bool
  | Cond.inList _ vs => !vs.isEmpty
  | Cond.notInList _ vs => !vs.isEmpty
  | Cond.and cs => noEmptyInList cs
  | Cond.or cs => noEmptyInList cs
  | Cond.eq _ _ => true
  | Cond.neq _ _ => true
  | Cond.like _ _ => true
  | Cond.raw _ => true

/-- `noEmptyIn` over a list of conditions. -/
def noEmptyInList : List Cond → Bool
  | [] => true
  | c :: cs => noEmptyIn c && noEmptyInList cs

end

/-! ## The filter-to-SQL compiler

Modelled from the spec: `AddFilterToSelectQuery` (package `db/sql`) —
operator inference (search token ⇒ LIKE, sequence ⇒ IN / NOT IN,
otherwise =/<>), the empty-sequence edge case, `__bool__` constants,
`__and__`/`__or__` compounds, identifier quoting, and compile errors on
unknown properties or ill-shaped values; pinned to the SQL text and
parameters the tests in `src/db/sql/sql_test.go` expect. -/

/-- Compile errors: unknown property, or an operator/value shape the
key cannot take. -/
inductive CompileError where
  | unknownProperty : String → CompileError
  | badValueShape : String → CompileError
deriving DecidableEq, Repr

/-- Compile one leaf comparison for column `col` under operator `op`:
a search token becomes LIKE on the escaped wrapped pattern, a sequence
becomes membership (constant truth for the empty sequence), a literal a
direct comparison. -/
def compileLeafCond (col : String) (op : OpType) (lv : LeafVal) : Cond :=
  match lv with
  | LeafVal.search s => Cond.like col (likePatternStr s)
  | LeafVal.seq [] => boolCond (op == OpType.neq)
  | LeafVal.seq (v :: vs) =>
      match op with
      | OpType.eq => Cond.inList col (v :: vs)
      | OpType.neq => Cond.notInList col (v :: vs)
  | LeafVal.lit v =>
      match op with
      | OpType.eq => Cond.eq col v
      | OpType.neq => Cond.neq col v

mutual

/-- Compile one compound entry.  A leaf object resolves its property
against the schema (compile error otherwise) and uses its explicit
`type` (default `eq`); nested compounds recurse. -/
def compileItem (sch : Schema) : FilterItem → Except CompileError Cond
  | FilterItem.leaf p ty lv =>
      if sch.hasProperty p then
        Except.ok (compileLeafCond (quoteCol p) (ty.getD OpType.eq) lv)
      else
        Except.error (CompileError.unknownProperty p)
  | FilterItem.and xs =>
      match compileItems sch xs with
      | Except.ok cs => Except.ok (Cond.and cs)
      | Except.error e => Except.error e
  | FilterItem.or xs =>
      match compileItems sch xs with
      | Except.ok cs => Except.ok (Cond.or cs)
      | Except.error e => Except.error e
  | FilterItem.boolConst b => Except.ok (boolCond b)

/-- Compile the ordered entries of a compound. -/
def compileItems (sch : Schema) : List FilterItem → Except CompileError (List Cond)
  | [] => Except.ok []
  | x :: xs =>
      match compileItem sch x with
      | Except.error e => Except.error e
      | Except.ok c =>
        match compileItems sch xs with
        | Except.error e => Except.error e
        | Except.ok cs => Except.ok (c :: cs)

end

/-- Compile one top-level filter entry: the logical-operator keys
`__and__` / `__or__` / `__bool__` are handled first, every other key is
a property name resolved against the schema. -/
def compileTopEntry (sch : Schema) (k : String) (v : MapVal) : Except CompileError Cond :=
  if k = "__and__" then
    match v with
    | MapVal.items xs =>
      match compileItems sch xs with
      | Except.ok cs => Except.ok (Cond.and cs)
      | Except.error e => Except.error e
    | _ => Except.error (CompileError.badValueShape k)
  else if k = "__or__" then
    match v with
    | MapVal.items xs =>
      match compileItems sch xs with
      | Except.ok cs => Except.ok (Cond.or cs)
      | Except.error e => Except.error e
    | _ => Except.error (CompileError.badValueShape k)
  else if k = "__bool__" then
    match v with
    | MapVal.boolV b => Except.ok (boolCond b)
    | _ => Except.error (CompileError.badValueShape k)
  else if sch.hasProperty k then
    match v with
    | MapVal.leaf lv => Except.ok (compileLeafCond (quoteCol k) OpType.eq lv)
    | _ => Except.error (CompileError.badValueShape k)
  else
    Except.error (CompileError.unknownProperty k)

/-- Compile a whole filter (the top-level map, modelled as an ordered
association list) into the list of conjuncts added to the query. -/
def compileFilter (sch : Schema) : List (String × MapVal) → Except CompileError (List Cond)
  | [] => Except.ok []
  | (k, v) :: rest =>
      match compileTopEntry sch k v with
      | Except.error e => Except.error e
      | Except.ok c =>
        match compileFilter sch rest with
        | Except.error e => Except.error e
        | Except.ok cs => Except.ok (c :: cs)

/-- Modelled from the spec: `AddFilterToSelectQuery` appends the
compiled conjuncts of `filter` to the conditions already on the query
(each one a `.Where` call, AND-ed by squirrel). -/
def AddFilterToSelectQuery (sch : Schema) (q : List Cond)
    (filter : List (String × MapVal)) : Except CompileError (List Cond) :=
  match compileFilter sch filter with
  | Except.ok cs => Except.ok (q ++ cs)
  | Except.error e => Except.error e

/-! ## The transaction package (embedded from `src`)

The isolation-level constants and `GetIsolationLevel` come from the
`transaction` package in the sample.  Go's `Type` is a string type;
the unchecked type assertion `level.(string)` is modelled by returning
`none` (a panic) when the stored override is not a string. -/

/-- Transaction type `READ UNCOMMITTED`. -/
def ReadUncommitted : String := "READ UNCOMMITTED"

/-- Transaction type `READ COMMITTED`. -/
def ReadCommited : String := "READ COMMITTED"

/-- Transaction type `REPEATABLE READ`, the default for read requests. -/
def RepeatableRead : String := "REPEATABLE READ"

/-- Transaction type `SERIALIZABLE`. -/
def Serializable : String := "SERIALIZABLE"

/-- Go map lookup over the association-list model of
`schema.Schema.IsolationLevel`. -/
def lookupIso : List (String × GoVal) → String → Option GoVal
  | [], _ => none
  | (k, v) :: rest, a => if k = a then some v else lookupIso rest a

/-- `GetIsolationLevel` returns the isolation level for an action: the
schema's override when present (via the unchecked `level.(string)`
assertion, `none` modelling its panic on a non-string value), otherwise
`REPEATABLE READ` for `"read"` and `SERIALIZABLE` for anything else. -/
def GetIsolationLevel (s : Schema) (action : String) : Option String :=
  match lookupIso s.isolationLevel action with
  | none =>
    if action = "read" then some RepeatableRead else some Serializable
  | some level =>
    match level with
    | GoVal.str levelStr => some levelStr
    | _ => none

/-- A stored override value survives the `level.(string)` assertion. -/
def GoVal.isStr : GoVal → Bool
  | GoVal.str _ => true
  | _ => false

/-! ## The Go-callback registry (embedded from `src`)

`extension/golang/callback.go` keeps a process-global
`map[string]GoCallback`; the map is modelled as an association list in
which a registration shadows earlier entries for the same name and
lookup finds the most recent one, and `nil` is modelled by `none`. -/

/-- `RegisterGoCallback` registers a go callback under a name,
overwriting any earlier registration for that name. -/
def RegisterGoCallback {α : Type} (m : List (String × α)) (name : String)
    (callback : α) : List (String × α) :=
  (name, callback) :: m

/-- `GetGoCallback` returns the registered go callback, or `none`
(Go `nil`) when the name was never registered. -/
def GetGoCallback {α : Type} : List (String × α) → String → Option α
  | [], _ => none
  | (k, v) :: rest, name => if k = name then some v else GetGoCallback rest name

/-! ## Pagination and the CRUD read operations

Modelled from the spec: `pagination.NewPaginator` validates that limit
and offset are non-negative; `List` returns the filtered rows after
offset/limit together with a total count computed ignoring pagination;
`Fetch` / `LockFetch` fail with the distinct resource-not-found error
exactly when no row matches; `Count` returns the matching-row count.
(The optional sort key is not modelled; none of the claims touch it.) -/

/-- A validated paginator: row limit and offset. -/
structure Paginator where
  limit : Nat
  offset : Nat
deriving DecidableEq, Repr

/-- `NewPaginator` fails on a negative limit or offset. -/
def NewPaginator (limit offset : Int) : Except String Paginator :=
  if limit < 0 then Except.error "limit must be non-negative"
  else if offset < 0 then Except.error "offset must be non-negative"
  else Except.ok ⟨limit.toNat, offset.toNat⟩

/-- Database-level errors surfaced by the read operations:
`resourceNotFound` embeds `transaction.ErrResourceNotFound`
("resource not found"); `backend` wraps a generic driver error. -/
inductive DBError where
  | resourceNotFound
  | backend : String → DBError
deriving DecidableEq, Repr

/-- Row lock intents (`schema.LockPolicy`): none, shared, exclusive,
skip-locked. -/
inductive LockPolicy where
  | noneLock
  | shared
  | exclusive
  | skipLocked
deriving DecidableEq, Repr

/-- `List`: the rows matching the filter, after offset and limit, plus
the total matching count computed with pagination ignored. -/
def listWithPagination {α : Type} (rows : List α) (flt : α → Bool)
    (pg : Paginator) : List α × Nat :=
  (((rows.filter flt).drop pg.offset).take pg.limit, (rows.filter flt).length)

/-- `List` as a transaction operation: zero matching rows is a normal,
non-error outcome. -/
def ListOp {α : Type} (rows : List α) (flt : α → Bool) (pg : Paginator) :
    Except DBError (List α × Nat) :=
  Except.ok (listWithPagination rows flt pg)

/-- `Count`: the total matching rows, ignoring pagination; zero is a
normal, non-error outcome. -/
def Count {α : Type} (rows : List α) (flt : α → Bool) : Except DBError Nat :=
  Except.ok (rows.filter flt).length

/-- `Fetch` reads the single resource matching the filter and fails
with the distinct resource-not-found error when no row matches. -/
def Fetch {α : Type} (rows : List α) (flt : α → Bool) : Except DBError α :=
  match rows.filter flt with
  | [] => Except.error DBError.resourceNotFound
  | r :: _ => Except.ok r

/-- `LockFetch` is `Fetch` with a row-lock intent; the lock intent does
not change which row is read or the error behaviour. -/
def LockFetch {α : Type} (rows : List α) (flt : α → Bool) (_ : LockPolicy) :
    Except DBError α :=
  Fetch rows flt

/-! ## The DDL generator

Modelled from the spec: `AlterTableDef` computes the structural
difference between the previously generated table definition and the
current schema — new properties become `ADD COLUMN` clauses, newly
indexed properties become `CREATE INDEX` statements; clause text pinned
by the tests. -/

/-- The `ALTER TABLE ... add (...)` clause for one new property. -/
def genAddColumn (tbl : String) (p : Property) : String :=
  "alter table`" ++ tbl ++ "` add (`" ++ p.name ++ "` " ++ p.sqlType ++
    (if p.notNull then " not null" else "") ++ ");"

/-- The `CREATE INDEX` statement for one newly indexed property. -/
def genCreateIndex (tbl : String) (p : Property) : String :=
  "CREATE INDEX " ++ tbl ++ "_" ++ p.name ++ "_idx ON `" ++ tbl ++
    "`(`" ++ p.name ++ "`);"

/-- `AlterTableDef`: properties of `current` absent from `existing`
become ADD COLUMN clauses; properties of `current` indexed but not
already indexed in `existing` become CREATE INDEX statements. -/
def AlterTableDef (tbl : String) (existing current : List Property) :
    List String × List String :=
  ((current.filter (fun p => !(existing.any (fun q => q.name == p.name)))).map
      (genAddColumn tbl),
   (current.filter (fun p =>
      p.indexed && !(existing.any (fun q => q.name == p.name && q.indexed)))).map
      (genCreateIndex tbl))

/-- The test fixture's `test` schema: seven properties, with
`tenant_id` and `domain_id` indexed. -/
def testSchema : Schema :=
  ⟨"tests",
   [⟨"id", "varchar(255)", true, false⟩,
    ⟨"tenant_id", "varchar(255)", true, true⟩,
    ⟨"domain_id", "varchar(255)", true, true⟩,
    ⟨"test_string", "varchar(255)", true, false⟩,
    ⟨"test_number", "numeric", true, false⟩,
    ⟨"test_integer", "int(11)", true, false⟩,
    ⟨"test_bool", "boolean", true, false⟩], []⟩

/-! ## Supporting lemmas -/

lemma noEmptyInList_iff (cs : List Cond) :
    noEmptyInList cs = true ↔ ∀ c ∈ cs, noEmptyIn c = true := by
  induction cs with
  | nil => simp [noEmptyInList]
  | cons c cs ih =>
    rw [noEmptyInList, Bool.and_eq_true, ih]
    simp

lemma compileLeafCond_noEmptyIn (col : String) (op : OpType) (lv : LeafVal) :
    noEmptyIn (compileLeafCond col op lv) = true := by
  cases lv with
  | search s => simp [compileLeafCond, noEmptyIn]
  | seq vs =>
    cases vs with
    | nil => cases op <;> simp [compileLeafCond, boolCond, noEmptyIn]
    | cons v vs => cases op <;> simp [compileLeafCond, noEmptyIn]
  | lit v => cases op <;> simp [compileLeafCond, noEmptyIn]

lemma compileItems_mem (sch : Schema) :
    ∀ (xs : List FilterItem) (cs : List Cond),
      compileItems sch xs = Except.ok cs →
      ∀ c ∈ cs, ∃ it, it ∈ xs ∧ compileItem sch it = Except.ok c := by
  intro xs
  induction xs with
  | nil =>
    intro cs h c hc
    simp [compileItems] at h
    subst h
    simp at hc
  | cons x xs ih =>
    intro cs h c hc
    cases h1 : compileItem sch x with
    | error e =>
      rw [compileItems, h1] at h
      exact absurd h (by simp)
    | ok c1 =>
      cases h2 : compileItems sch xs with
      | error e =>
        rw [compileItems, h1, h2] at h
        exact absurd h (by simp)
      | ok cs1 =>
        rw [compileItems, h1, h2] at h
        have hcs : c1 :: cs1 = cs := by
          injection h
        subst hcs
        rcases List.mem_cons.mp hc with rfl | htail
        · exact ⟨x, List.mem_cons_self x xs, h1⟩
        · obtain ⟨it, hit, hcomp⟩ := ih cs1 h2 c htail
          exact ⟨it, List.mem_cons_of_mem x hit, hcomp⟩

lemma compileItem_noEmptyIn_sized (sch : Schema) :
    ∀ (n : Nat) (it : FilterItem), sizeOf it ≤ n →
      ∀ c, compileItem sch it = Except.ok c → noEmptyIn c = true := by
  intro n
  induction n with
  | zero =>
    intro it h
    exfalso
    cases it <;> simp at h
  | succ n ih =>
    intro it hsize c hc
    cases it with
    | leaf p ty lv =>
      by_cases hp : sch.hasProperty p
      · rw [compileItem, if_pos hp] at hc
        have : compileLeafCond (quoteCol p) (ty.getD OpType.eq) lv = c := by
          injection hc
        rw [← this]
        exact compileLeafCond_noEmptyIn _ _ _
      · rw [compileItem, if_neg hp] at hc
        exact absurd hc (by simp)
    | boolConst b =>
      rw [compileItem] at hc
      have : boolCond b = c := by injection hc
      rw [← this]
      simp [boolCond, noEmptyIn]
    | and xs =>
      cases h1 : compileItems sch xs with
      | error e =>
        rw [compileItem, h1] at hc
        exact absurd hc (by simp)
      | ok cs =>
        rw [compileItem, h1] at hc
        have : Cond.and cs = c := by injection hc
        rw [← this, noEmptyIn, noEmptyInList_iff]
        intro c' hc'
        obtain ⟨it', hit', hcomp⟩ := compileItems_mem sch xs cs h1 c' hc'
        have hlt := List.sizeOf_lt_of_mem hit'
        have hsz : sizeOf (FilterItem.and xs) = 1 + sizeOf xs := by simp
        exact ih it' (by omega) c' hcomp
    | or xs =>
      cases h1 : compileItems sch xs with
      | error e =>
        rw [compileItem, h1] at hc
        exact absurd hc (by simp)
      | ok cs =>
        rw [compileItem, h1] at hc
        have : Cond.or cs = c := by injection hc
        rw [← this, noEmptyIn, noEmptyInList_iff]
        intro c' hc'
        obtain ⟨it', hit', hcomp⟩ := compileItems_mem sch xs cs h1 c' hc'
        have hlt := List.sizeOf_lt_of_mem hit'
        have hsz : sizeOf (FilterItem.or xs) = 1 + sizeOf xs := by simp
        exact ih it' (by omega) c' hcomp

lemma compileItem_noEmptyIn (sch : Schema) (it : FilterItem) (c : Cond)
    (h : compileItem sch it = Except.ok c) : noEmptyIn c = true :=
  compileItem_noEmptyIn_sized sch (sizeOf it) it le_rfl c h

lemma compileItems_noEmptyIn (sch : Schema) (xs : List FilterItem) (cs : List Cond)
    (h : compileItems sch xs = Except.ok cs) : noEmptyInList cs = true := by
  rw [noEmptyInList_iff]
  intro c hc
  obtain ⟨it, _, hcomp⟩ := compileItems_mem sch xs cs h c hc
  exact compileItem_noEmptyIn sch it c hcomp

lemma compileTopEntry_noEmptyIn (sch : Schema) (k : String) (v : MapVal) (c : Cond)
    (h : compileTopEntry sch k v = Except.ok c) : noEmptyIn c = true := by
  unfold compileTopEntry at h
  by_cases h1 : k = "__and__"
  · rw [if_pos h1] at h
    cases v with
    | items xs =>
      dsimp only at h
      cases h2 : compileItems sch xs with
      | error e => rw [h2] at h; exact absurd h (by simp)
      | ok cs =>
        rw [h2] at h
        have : Cond.and cs = c := by injection h
        rw [← this, noEmptyIn]
        exact compileItems_noEmptyIn sch xs cs h2
    | leaf lv => exact absurd h (by simp)
    | boolV b => exact absurd h (by simp)
  · rw [if_neg h1] at h
    by_cases h2 : k = "__or__"
    · rw [if_pos h2] at h
      cases v with
      | items xs =>
        dsimp only at h
        cases h3 : compileItems sch xs with
        | error e => rw [h3] at h; exact absurd h (by simp)
        | ok cs =>
          rw [h3] at h
          have : Cond.or cs = c := by injection h
          rw [← this, noEmptyIn]
          exact compileItems_noEmptyIn sch xs cs h3
      | leaf lv => exact absurd h (by simp)
      | boolV b => exact absurd h (by simp)
    · rw [if_neg h2] at h
      by_cases h3 : k = "__bool__"
      · rw [if_pos h3] at h
        cases v with
        | boolV b =>
          dsimp only at h
          have : boolCond b = c := by injection h
          rw [← this]
          simp [boolCond, noEmptyIn]
        | leaf lv => exact absurd h (by simp)
        | items xs => exact absurd h (by simp)
      · rw [if_neg h3] at h
        by_cases h4 : sch.hasProperty k
        · rw [if_pos h4] at h
          cases v with
          | leaf lv =>
            dsimp only at h
            have : compileLeafCond (quoteCol k) OpType.eq lv = c := by injection h
            rw [← this]
            exact compileLeafCond_noEmptyIn _ _ _
          | items xs => exact absurd h (by simp)
          | boolV b => exact absurd h (by simp)
        · rw [if_neg h4] at h
          exact absurd h (by simp)

lemma compileFilter_noEmptyIn (sch : Schema) :
    ∀ (f : List (String × MapVal)) (cs : List Cond),
      compileFilter sch f = Except.ok cs → noEmptyInList cs = true := by
  intro f
  induction f with
  | nil =>
    intro cs h
    simp [compileFilter] at h
    subst h
    rfl
  | cons kv rest ih =>
    obtain ⟨k, v⟩ := kv
    intro cs h
    cases h1 : compileTopEntry sch k v with
    | error e =>
      rw [compileFilter, h1] at h
      exact absurd h (by simp)
    | ok c =>
      cases h2 : compileFilter sch rest with
      | error e =>
        rw [compileFilter, h1, h2] at h
        exact absurd h (by simp)
      | ok cs1 =>
        rw [compileFilter, h1, h2] at h
        have : c :: cs1 = cs := by injection h
        subst this
        rw [noEmptyInList, Bool.and_eq_true]
        exact ⟨compileTopEntry_noEmptyIn sch k v c h1, ih cs1 h2⟩

/-! ## Claim theorems -/

/-- C1 (amended): for every search-token leaf value the compiler emits a
LIKE condition whose pattern is the value wrapped in `%...%` after an
escaping that prefixes each of the SQL wildcard characters `%`, `_` and
the escape character `\` with the escape character (so only the escape
character itself ends up doubled), and matching that pattern under SQL
LIKE semantics holds exactly when the original value occurs literally as
a substring of the subject, regardless of wildcard characters in the
input. -/
theorem likeQuery_escaping (sch : Schema) (k : String) (s : String)
    (hk : sch.hasProperty k = true)
    (h1 : k ≠ "__and__") (h2 : k ≠ "__or__") (h3 : k ≠ "__bool__") :
    AddFilterToSelectQuery sch [] [(k, MapVal.leaf (LeafVal.search s))] =
      Except.ok [Cond.like (quoteCol k) (likePatternStr s)] ∧
    likePatternStr s = String.mk ('%' :: (escapeLike s.toList ++ ['%'])) ∧
    (∀ v t : List Char,
      likeMatch (likePattern v) t = true ↔ ∃ a b, a ++ v ++ b = t) := by
  refine ⟨?_, rfl, likePattern_matches⟩
  rw [AddFilterToSelectQuery, compileFilter]
  unfold compileTopEntry
  rw [if_neg h1, if_neg h2, if_neg h3, if_pos hk]
  rfl

/-- C1 witness: the exact instance of the first LIKE test. -/
theorem likeQuery_escaping_witness :
    AddFilterToSelectQuery testSchema []
        [("test_string", MapVal.leaf (LeafVal.search "123"))] =
      Except.ok [Cond.like "`test_string`" "%123%"] :=
  (likeQuery_escaping testSchema "test_string" "123" rfl
    (by decide) (by decide) (by decide)).1

/-- C1 counterexample: the claim's "doubling" escaping is not what the
compiler does.  At the search value `"%"` the emitted pattern is
`%\%%` (backslash-escaped), not the doubled `%%%%`; and the doubled
pattern would match the subject `"ab"` under LIKE even though `"%"` is
not a literal substring of it, so doubling would not give literal
substring matching either. -/
theorem likeQuery_doubling_counterexample :
    compileLeafCond (quoteCol "test_string") OpType.eq (LeafVal.search "%") =
      Cond.like "`test_string`" "%\\%%" ∧
    likePatternStr "%" ≠ String.mk (specDoubledPattern "%".toList) ∧
    likeMatch (specDoubledPattern ['%']) ['a', 'b'] = true ∧
    ¬(∃ a b : List Char, a ++ ['%'] ++ b = ['a', 'b']) := by
  refine ⟨rfl, by decide, by decide, ?_⟩
  intro h
  have h2 := (likePattern_matches ['%'] ['a', 'b']).2 h
  exact absurd h2 (by decide)

/-- C2: a filter leaf whose value is the empty sequence compiles to the
constant-false predicate `(1=0)` under equality semantics (a bare
`\x7bx: []\x7d` entry, a compound leaf with no `type`, or `type: eq`) and
to the constant-true predicate `(1=1)` under `type: neq`; and no
condition produced by the compiler ever contains an `IN`/`NOT IN` over
an empty list, so no `IN ()` SQL is ever rendered. -/
theorem emptySequenceFilter (sch : Schema) (x p : String)
    (hx : sch.hasProperty x = true)
    (h1 : x ≠ "__and__") (h2 : x ≠ "__or__") (h3 : x ≠ "__bool__")
    (hp : sch.hasProperty p = true) :
    AddFilterToSelectQuery sch [] [(x, MapVal.leaf (LeafVal.seq []))] =
      Except.ok [Cond.raw "(1=0)"] ∧
    compileItem sch (FilterItem.leaf p none (LeafVal.seq [])) =
      Except.ok (Cond.raw "(1=0)") ∧
    compileItem sch (FilterItem.leaf p (some OpType.eq) (LeafVal.seq [])) =
      Except.ok (Cond.raw "(1=0)") ∧
    compileItem sch (FilterItem.leaf p (some OpType.neq) (LeafVal.seq [])) =
      Except.ok (Cond.raw "(1=1)") ∧
    (∀ (sch' : Schema) (f : List (String × MapVal)) (conds : List Cond),
      AddFilterToSelectQuery sch' [] f = Except.ok conds →
      noEmptyInList conds = true) := by
  refine ⟨?_, ?_, ?_, ?_, ?_⟩
  · rw [AddFilterToSelectQuery, compileFilter]
    unfold compileTopEntry
    rw [if_neg h1, if_neg h2, if_neg h3, if_pos hx]
    rfl
  · rw [compileItem, if_pos hp]
    rfl
  · rw [compileItem, if_pos hp]
    rfl
  · rw [compileItem, if_pos hp]
    rfl
  · intro sch' f conds h
    rw [AddFilterToSelectQuery] at h
    cases hf : compileFilter sch' f with
    | error e => rw [hf] at h; exact absurd h (by simp)
    | ok cs =>
      rw [hf] at h
      have : [] ++ cs = conds := by injection h
      rw [← this, List.nil_append]
      exact compileFilter_noEmptyIn sch' f cs hf

/-- C2 witness: the concrete instances of the empty-list tests. -/
theorem emptySequenceFilter_witness :
    AddFilterToSelectQuery testSchema []
        [("test_string", MapVal.leaf (LeafVal.seq []))] =
      Except.ok [Cond.raw "(1=0)"] ∧
    compileItem testSchema
        (FilterItem.leaf "test_string" (some OpType.neq) (LeafVal.seq [])) =
      Except.ok (Cond.raw "(1=1)") := by
  have h := emptySequenceFilter testSchema "test_string" "test_string" rfl
    (by decide) (by decide) (by decide) rfl
  exact ⟨h.1, h.2.2.2.1⟩

/-- C3: a filter mixing a simple property key with a compound `__or__`
key at the same level compiles both and squirrel joins the resulting
conjuncts with AND, yielding `a = ? AND (...)`. -/
theorem mixedSimpleAndCompound (sch : Schema) (a : String) (v : Val)
    (xs : List FilterItem) (cs : List Cond)
    (ha : sch.hasProperty a = true)
    (h1 : a ≠ "__and__") (h2 : a ≠ "__or__") (h3 : a ≠ "__bool__")
    (hxs : compileItems sch xs = Except.ok cs) :
    AddFilterToSelectQuery sch []
        [(a, MapVal.leaf (LeafVal.lit v)), ("__or__", MapVal.items xs)] =
      Except.ok [Cond.eq (quoteCol a) v, Cond.or cs] ∧
    whereSql [Cond.eq (quoteCol a) v, Cond.or cs] =
      quoteCol a ++ " = ?" ++ " AND " ++
        ("(" ++ joinWith " OR " ((condListToSql cs).map Prod.fst) ++ ")") := by
  constructor
  · rw [AddFilterToSelectQuery, compileFilter]
    unfold compileTopEntry
    rw [if_neg h1, if_neg h2, if_neg h3, if_pos ha]
    rw [compileFilter]
    unfold compileTopEntry
    rw [if_neg (by decide : ¬("__or__" = "__and__")),
        if_pos (rfl : "__or__" = "__or__")]
    dsimp only
    rw [hxs]
    rfl
  · rw [whereSql, condListToSql, condListToSql, condListToSql]
    rfl

/-- C3 witness: the concrete instance of the mixed-filter test,
`\x7btest_integer: 42, __or__: [test_number = 13, test_string <> "123"]\x7d`. -/
theorem mixedSimpleAndCompound_witness :
    AddFilterToSelectQuery testSchema []
        [("test_integer", MapVal.leaf (LeafVal.lit (Val.int 42))),
         ("__or__", MapVal.items
           [FilterItem.leaf "test_number" (some OpType.eq)
              (LeafVal.lit (Val.int 13)),
            FilterItem.leaf "test_string" (some OpType.neq)
              (LeafVal.lit (Val.str "123"))])] =
      Except.ok [Cond.eq "`test_integer`" (Val.int 42),
        Cond.or [Cond.eq "`test_number`" (Val.int 13),
                 Cond.neq "`test_string`" (Val.str "123")]] ∧
    whereSql [Cond.eq "`test_integer`" (Val.int 42),
        Cond.or [Cond.eq "`test_number`" (Val.int 13),
                 Cond.neq "`test_string`" (Val.str "123")]] =
      "`test_integer` = ? AND (`test_number` = ? OR `test_string` <> ?)" ∧
    whereParams [Cond.eq "`test_integer`" (Val.int 42),
        Cond.or [Cond.eq "`test_number`" (Val.int 13),
                 Cond.neq "`test_string`" (Val.str "123")]] =
      [Val.int 42, Val.int 13, Val.str "123"] := by
  have h := mixedSimpleAndCompound testSchema "test_integer" (Val.int 42)
    [FilterItem.leaf "test_number" (some OpType.eq) (LeafVal.lit (Val.int 13)),
     FilterItem.leaf "test_string" (some OpType.neq) (LeafVal.lit (Val.str "123"))]
    [Cond.eq "`test_number`" (Val.int 13), Cond.neq "`test_string`" (Val.str "123")]
    rfl (by decide) (by decide) (by decide) rfl
  exact ⟨h.1, rfl, rfl⟩

/-- C4: `__bool__: true` / `__bool__: false` compile to the constant
`(1=1)` / `(1=0)` fragments, at the filter root and as an entry of an
`__and__` / `__or__` compound, where the fragment is joined with its
sibling predicates by the compound's connective. -/
theorem boolConstFilter (sch : Schema) (b : Bool)
    (xs : List FilterItem) (cs : List Cond)
    (hxs : compileItems sch xs = Except.ok cs) :
    AddFilterToSelectQuery sch [] [("__bool__", MapVal.boolV b)] =
      Except.ok [Cond.raw (if b then "(1=1)" else "(1=0)")] ∧
    condToSql (boolCond b) = ((if b then "(1=1)" else "(1=0)"), []) ∧
    compileItem sch (FilterItem.boolConst b) = Except.ok (boolCond b) ∧
    compileTopEntry sch "__or__" (MapVal.items (FilterItem.boolConst b :: xs)) =
      Except.ok (Cond.or (boolCond b :: cs)) ∧
    compileTopEntry sch "__and__" (MapVal.items (FilterItem.boolConst b :: xs)) =
      Except.ok (Cond.and (boolCond b :: cs)) ∧
    (condToSql (Cond.or (boolCond b :: cs))).1 =
      "(" ++ joinWith " OR "
        ((if b then "(1=1)" else "(1=0)") :: (condListToSql cs).map Prod.fst)
        ++ ")" ∧
    (condToSql (Cond.and (boolCond b :: cs))).1 =
      "(" ++ joinWith " AND "
        ((if b then "(1=1)" else "(1=0)") :: (condListToSql cs).map Prod.fst)
        ++ ")" := by
  refine ⟨?_, ?_, rfl, ?_, ?_, ?_, ?_⟩
  · rw [AddFilterToSelectQuery, compileFilter]
    unfold compileTopEntry
    rw [if_neg (by decide : ¬("__bool__" = "__and__")),
        if_neg (by decide : ¬("__bool__" = "__or__")),
        if_pos (rfl : "__bool__" = "__bool__")]
    rfl
  · cases b <;> rfl
  · unfold compileTopEntry
    rw [if_neg (by decide : ¬("__or__" = "__and__")),
        if_pos (rfl : "__or__" = "__or__")]
    dsimp only
    rw [compileItems, compileItem, hxs]
  · unfold compileTopEntry
    rw [if_pos (rfl : "__and__" = "__and__")]
    dsimp only
    rw [compileItems, compileItem, hxs]
  · rw [condToSql, condListToSql]
    cases b <;> rfl
  · rw [condToSql, condListToSql]
    cases b <;> rfl

/-- C4 witness: the concrete instances of the constant-bool tests,
at the root and inside `__or__` next to `test_string <> "123"`. -/
theorem boolConstFilter_witness :
    AddFilterToSelectQuery testSchema [] [("__bool__", MapVal.boolV true)] =
      Except.ok [Cond.raw "(1=1)"] ∧
    compileTopEntry testSchema "__or__"
        (MapVal.items [FilterItem.boolConst false,
          FilterItem.leaf "test_string" (some OpType.neq)
            (LeafVal.lit (Val.str "123"))]) =
      Except.ok (Cond.or [Cond.raw "(1=0)",
        Cond.neq "`test_string`" (Val.str "123")]) ∧
    (condToSql (Cond.or [Cond.raw "(1=0)",
        Cond.neq "`test_string`" (Val.str "123")])).1 =
      "((1=0) OR `test_string` <> ?)" := by
  have ht := boolConstFilter testSchema true
    [FilterItem.leaf "test_string" (some OpType.neq) (LeafVal.lit (Val.str "123"))]
    [Cond.neq "`test_string`" (Val.str "123")] rfl
  have hf := boolConstFilter testSchema false
    [FilterItem.leaf "test_string" (some OpType.neq) (LeafVal.lit (Val.str "123"))]
    [Cond.neq "`test_string`" (Val.str "123")] rfl
  exact ⟨ht.1, hf.2.2.2.1, rfl⟩

lemma lookupIso_mem :
    ∀ (l : List (String × GoVal)) (a : String) (v : GoVal),
      lookupIso l a = some v → ∃ k, (k, v) ∈ l := by
  intro l
  induction l with
  | nil =>
    intro a v h
    simp [lookupIso] at h
  | cons kv rest ih =>
    obtain ⟨k, w⟩ := kv
    intro a v h
    rw [lookupIso] at h
    by_cases hk : k = a
    · rw [if_pos hk] at h
      have : w = v := by injection h
      subst this
      exact ⟨k, List.mem_cons_self _ _⟩
    · rw [if_neg hk] at h
      obtain ⟨k', hk'⟩ := ih a v h
      exact ⟨k', List.mem_cons_of_mem _ hk'⟩

/-- C5: `GetIsolationLevel` returns the schema's override level when the
schema defines one for the action, and otherwise `REPEATABLE READ` for
the `"read"` action and `SERIALIZABLE` for every other action. -/
theorem getIsolationLevel_spec (s : Schema) (action : String) (l : String) :
    (lookupIso s.isolationLevel action = some (GoVal.str l) →
      GetIsolationLevel s action = some l) ∧
    (lookupIso s.isolationLevel action = none →
      GetIsolationLevel s action =
        some (if action = "read" then RepeatableRead else Serializable)) := by
  constructor
  · intro h
    simp [GetIsolationLevel, h]
  · intro h
    by_cases ha : action = "read"
    · subst ha
      simp [GetIsolationLevel, h]
    · simp [GetIsolationLevel, h, ha]

/-- C5 witness: an override wins; without one, `read` gets
`REPEATABLE READ` and `create` gets `SERIALIZABLE`. -/
theorem getIsolationLevel_spec_witness :
    GetIsolationLevel ⟨"t", [], [("read", GoVal.str "SERIALIZABLE")]⟩ "read" =
      some "SERIALIZABLE" ∧
    GetIsolationLevel ⟨"t", [], []⟩ "read" = some "REPEATABLE READ" ∧
    GetIsolationLevel ⟨"t", [], []⟩ "create" = some "SERIALIZABLE" := by
  refine ⟨(getIsolationLevel_spec _ "read" "SERIALIZABLE").1 rfl, ?_, ?_⟩
  · have h := (getIsolationLevel_spec ⟨"t", [], []⟩ "read" "").2 rfl
    simpa [RepeatableRead] using h
  · have h := (getIsolationLevel_spec ⟨"t", [], []⟩ "create" "").2 rfl
    simpa [Serializable] using h

/-- C6: a `List` call through a paginator built with limit 0 returns the
empty row list together with the exact number of rows matching the
filter, and for every paginator the returned total ignores both limit
and offset. -/
theorem listLimitZero {α : Type} (rows : List α) (flt : α → Bool)
    (offset : Int) (pg : Paginator)
    (h : NewPaginator 0 offset = Except.ok pg) :
    (listWithPagination rows flt pg).1 = [] ∧
    (listWithPagination rows flt pg).2 = (rows.filter flt).length ∧
    (∀ pg' : Paginator,
      (listWithPagination rows flt pg').2 = (rows.filter flt).length) := by
  have hlim : pg.limit = 0 := by
    rw [NewPaginator] at h
    rw [if_neg (by omega : ¬((0 : Int) < 0))] at h
    by_cases ho : offset < 0
    · rw [if_pos ho] at h
      exact absurd h (by simp)
    · rw [if_neg ho] at h
      have : (⟨(0 : Int).toNat, offset.toNat⟩ : Paginator) = pg := by injection h
      rw [← this]
      rfl
  refine ⟨?_, rfl, fun pg' => rfl⟩
  rw [listWithPagination, hlim]
  simp

/-- C6 witness: three rows, a filter matching two of them, limit 0. -/
theorem listLimitZero_witness :
    NewPaginator 0 0 = Except.ok (⟨0, 0⟩ : Paginator) ∧
    listWithPagination [1, 2, 3] (fun n => decide (n ≤ 2))
        (⟨0, 0⟩ : Paginator) = ([], 2) := by
  have h := listLimitZero [1, 2, 3] (fun n => decide (n ≤ 2)) 0 ⟨0, 0⟩ rfl
  exact ⟨rfl, by rw [Prod.ext_iff]; exact ⟨h.1, h.2.1⟩⟩

/-- C7: appending one new indexed property to a schema's property list
and diffing against the previous list yields exactly one ADD COLUMN
clause and exactly one CREATE INDEX statement, both for that property. -/
theorem alterTableDef_addIndexed (tbl : String) (props : List Property)
    (p : Property) (hind : p.indexed = true)
    (hfresh : ∀ q ∈ props, q.name ≠ p.name) :
    AlterTableDef tbl props (props ++ [p]) =
      ([genAddColumn tbl p], [genCreateIndex tbl p]) := by
  have hself : ∀ q ∈ props, props.any (fun r => r.name == q.name) = true := by
    intro q hq
    exact List.any_eq_true.2 ⟨q, hq, by simp⟩
  have hnew : props.any (fun r => r.name == p.name) = false := by
    by_contra hfalse
    have := List.any_eq_true.1 (eq_true_of_ne_false hfalse)
    obtain ⟨r, hr, hname⟩ := this
    exact hfresh r hr (by simpa using hname)
  have hnewIdx : props.any (fun r => r.name == p.name && r.indexed) = false := by
    by_contra hfalse
    have := List.any_eq_true.1 (eq_true_of_ne_false hfalse)
    obtain ⟨r, hr, hname⟩ := this
    rw [Bool.and_eq_true] at hname
    exact hfresh r hr (by simpa using hname.1)
  rw [AlterTableDef]
  have hcols : (props ++ [p]).filter
      (fun q => !(props.any (fun r => r.name == q.name))) = [p] := by
    rw [List.filter_append]
    have hnil : props.filter
        (fun q => !(props.any (fun r => r.name == q.name))) = [] := by
      rw [List.filter_eq_nil_iff]
      intro q hq
      rw [hself q hq]
      simp
    rw [hnil, List.nil_append, List.filter_cons]
    rw [hnew]
    simp
  have hidx : (props ++ [p]).filter
      (fun q => q.indexed && !(props.any (fun r => r.name == q.name && r.indexed)))
        = [p] := by
    rw [List.filter_append]
    have hnil : props.filter
        (fun q => q.indexed &&
          !(props.any (fun r => r.name == q.name && r.indexed))) = [] := by
      rw [List.filter_eq_nil_iff]
      intro q hq
      by_cases hqi : q.indexed = true
      · have : props.any (fun r => r.name == q.name && r.indexed) = true :=
          List.any_eq_true.2 ⟨q, hq, by simp [hqi]⟩
        rw [this]
        simp
      · rw [Bool.not_eq_true] at hqi
        rw [hqi]
        simp
    rw [hnil, List.nil_append, List.filter_cons]
    rw [hnewIdx, hind]
    simp
  rw [hcols, hidx]
  rfl

/-- C7 witness: the test's scenario — a fresh indexed property `test`
added to a one-property `servers` schema. -/
theorem alterTableDef_addIndexed_witness :
    AlterTableDef "servers"
        [⟨"id", "varchar(255)", true, false⟩]
        ([⟨"id", "varchar(255)", true, false⟩] ++
          [⟨"test", "varchar(255)", true, true⟩]) =
      (["alter table`servers` add (`test` varchar(255) not null);"],
       ["CREATE INDEX servers_test_idx ON `servers`(`test`);"]) := by
  have h := alterTableDef_addIndexed "servers"
    [⟨"id", "varchar(255)", true, false⟩]
    ⟨"test", "varchar(255)", true, true⟩ rfl (by decide)
  exact h.trans (by rfl)

/-- C8: `Fetch` (and `LockFetch`, whose lock intent does not change the
outcome) fails with the distinct resource-not-found error exactly when
zero rows match the filter and never with a generic backend error,
while `List` and `Count` treat zero matching rows as a normal non-error
outcome. -/
theorem fetchNotFound {α : Type} (rows : List α) (flt : α → Bool)
    (policy : LockPolicy) (pg : Paginator) :
    (Fetch rows flt = Except.error DBError.resourceNotFound ↔
      rows.filter flt = []) ∧
    LockFetch rows flt policy = Fetch rows flt ∧
    (∀ msg, Fetch rows flt ≠ Except.error (DBError.backend msg)) ∧
    Count rows flt = Except.ok (rows.filter flt).length ∧
    ListOp rows flt pg = Except.ok (listWithPagination rows flt pg) := by
  refine ⟨?_, rfl, ?_, rfl, rfl⟩
  · rw [Fetch]
    cases h : rows.filter flt <;> simp
  · intro msg
    rw [Fetch]
    cases h : rows.filter flt <;> simp

/-- C9: the callback registry returns the callback registered under a
name, a later registration under the same name overwrites the earlier
one, and lookup of a name that no sequence of registrations ever used
returns `none` (Go `nil`). -/
theorem goCallbackRegistry {α : Type} (m : List (String × α)) (name : String)
    (cb cb2 : α) :
    GetGoCallback (RegisterGoCallback m name cb) name = some cb ∧
    GetGoCallback (RegisterGoCallback (RegisterGoCallback m name cb) name cb2)
      name = some cb2 ∧
    (∀ regs : List (String × α), (∀ kv ∈ regs, kv.1 ≠ name) →
      GetGoCallback
        (regs.foldl (fun acc kv => RegisterGoCallback acc kv.1 kv.2) [])
        name = none) := by
  have hstep : ∀ (regs : List (String × α)) (init : List (String × α)),
      (∀ kv ∈ regs, kv.1 ≠ name) →
      GetGoCallback
          (regs.foldl (fun acc kv => RegisterGoCallback acc kv.1 kv.2) init)
          name = GetGoCallback init name := by
    intro regs
    induction regs with
    | nil =>
      intro init _
      rfl
    | cons kv rest ih =>
      obtain ⟨k, w⟩ := kv
      intro init h
      rw [List.foldl_cons]
      rw [ih _ (fun x hx => h x (List.mem_cons_of_mem _ hx))]
      have hk : k ≠ name := h (k, w) (List.mem_cons_self _ _)
      show GetGoCallback (RegisterGoCallback init k w) name = GetGoCallback init name
      rw [RegisterGoCallback, GetGoCallback, if_neg hk]
  refine ⟨?_, ?_, ?_⟩
  · rw [RegisterGoCallback, GetGoCallback, if_pos rfl]
  · rw [RegisterGoCallback, GetGoCallback, if_pos rfl]
  · intro regs h
    rw [hstep regs [] h]
    rfl

/-- C9 witness: register, overwrite, and a never-registered name. -/
theorem goCallbackRegistry_witness :
    GetGoCallback (RegisterGoCallback ([] : List (String × Nat)) "cb" 1) "cb" =
      some 1 ∧
    GetGoCallback
      (RegisterGoCallback (RegisterGoCallback ([] : List (String × Nat)) "cb" 1)
        "cb" 2) "cb" = some 2 ∧
    GetGoCallback
      ([("a", 5), ("b", 7)].foldl
        (fun acc kv => RegisterGoCallback acc kv.1 kv.2)
        ([] : List (String × Nat))) "cb" = none := by
  have h := goCallbackRegistry ([] : List (String × Nat)) "cb" 1 2
  exact ⟨h.1, h.2.1, h.2.2 [("a", 5), ("b", 7)] (by decide)⟩

/-- C10: `GetIsolationLevel`'s unchecked `level.(string)` assertion
never fires (the function is total, returning `some` level) whenever
every value stored in the schema's isolation-level map is a string; and
for a schema storing a non-string override the assertion fails — the
model returns `none`, standing for the Go panic. -/
theorem getIsolationLevel_assertion (s : Schema) (action : String) :
    (s.isolationLevel.all (fun kv => kv.2.isStr) = true →
      (GetIsolationLevel s action).isSome = true) ∧
    GetIsolationLevel ⟨"t", [], [("read", GoVal.int 0)]⟩ "read" = none := by
  constructor
  · intro hall
    cases h : lookupIso s.isolationLevel action with
    | none =>
      rw [GetIsolationLevel, h]
      dsimp only
      split <;> rfl
    | some v =>
      obtain ⟨k, hk⟩ := lookupIso_mem _ _ _ h
      have hv := List.all_eq_true.1 hall _ hk
      cases v with
      | str l =>
        rw [GetIsolationLevel, h]
        rfl
      | int n => exact absurd hv (by simp [GoVal.isStr])
      | boolean b => exact absurd hv (by simp [GoVal.isStr])
  · rfl

/-- C10 witness: an all-string override map yields a level. -/
theorem getIsolationLevel_assertion_witness :
    (GetIsolationLevel ⟨"t", [], [("read", GoVal.str "SERIALIZABLE")]⟩
      "read").isSome = true :=
  (getIsolationLevel_assertion
    ⟨"t", [], [("read", GoVal.str "SERIALIZABLE")]⟩ "read").1 (by decide)

end Gohan
